import Mathlib

/-!
Shallow embedding of the zaymibot backend core: the in-memory conversation
state store, the deep-link attribution parser, the link builder (binom URL
layer) and the scheduled-message engine, translated from the TypeScript
sources in `src/telegram/telegram.service.ts`, `src/binom/binom.service.ts`,
`src/telegram/scheduled-messages.service.ts` and the telegram users service.

Strings of the JS runtime are modelled as lists of characters (`Str`), and
the JS string operations the code uses (`split`, `trim`, `includes`,
template concatenation, `String(n)`) are implemented below by structural
recursion so that every definition evaluates inside the kernel.
Percent-encoding performed by `URLSearchParams` is modelled as the identity;
every concrete input used below stays inside the unreserved alphabet, where
the encoding really is the identity.
-/

/-- A JS string, as a list of characters. -/
abbrev Str := List Char

/-- Character-list form of a Lean string literal. -/
def str (s : String) : Str := s.toList

/-- JS truthiness of an optional string (`undefined`, `null` and `""` are falsy). -/
def jsTruthyS : Option Str → Bool
  | none => false
  | some s => !s.isEmpty

/-- JS `a || b` where `a` is an optional string and `b` a string. -/
def jsOrS (a : Option Str) (b : Str) : Str :=
  if jsTruthyS a then a.getD [] else b

/-- JS truthiness filter for an optional numeric id (`userId || undefined`):
`0`, `null` and `undefined` are falsy. -/
def jsTruthyN : Option Nat → Option Nat
  | none => none
  | some n => if n = 0 then none else some n

/-- Decimal digits of `n`, fuel-driven so that it is structural. -/
def natCharsAux : Nat → Nat → Str
  | 0, _ => []
  | fuel+1, n =>
    if n < 10 then [Nat.digitChar n]
    else natCharsAux fuel (n / 10) ++ [Nat.digitChar (n % 10)]

/-- JS `String(n)` for a nonnegative integer. -/
def natToChars (n : Nat) : Str := natCharsAux (n + 1) n

/-- Prepend a character to the first piece of a split result. -/
def consHead (a : Char) : List Str → List Str
  | [] => [[a]]
  | r :: rs => (a :: r) :: rs

/-- JS `s.split('__')`: left-to-right scan for the two-character separator. -/
def splitUU : Str → List Str
  | [] => [[]]
  | '_' :: '_' :: rest => [] :: splitUU rest
  | a :: rest => consHead a (splitUU rest)

/-- JS `s.split(c)` for a one-character separator. -/
def splitChar (c : Char) : Str → List Str
  | [] => [[]]
  | a :: rest => if a = c then [] :: splitChar c rest else consHead a (splitChar c rest)

/-- Split a string at the first occurrence of `c`: the part before it and,
when `c` occurs, the part after it. -/
def breakAtChar (c : Char) : Str → Str × Option Str
  | [] => ([], none)
  | a :: rest =>
    if a = c then ([], some rest)
    else
      let p := breakAtChar c rest
      (a :: p.1, p.2)

/-- The ASCII whitespace characters JS `trim` removes (restriction of the
full Unicode set to the characters that can occur in our data). -/
def isJsWs (c : Char) : Bool := c = ' ' || c = '\t' || c = '\n' || c = '\r'

/-- JS `s.trim()`. -/
def jsTrim (s : Str) : Str :=
  ((s.dropWhile isJsWs).reverse.dropWhile isJsWs).reverse

/-- Per-user conversation state: the `UserState` interface of
`telegram.service.ts` (all fields optional there). -/
structure UserState where
  loanAmount : Option Str := none
  creditHistory : Option Str := none
  binomAdid : Option Str := none
  binomSub2 : Option Str := none
  binomAddinfo : Option Str := none
  lastMessageId : Option Nat := none
deriving Repr, DecidableEq

/-- The in-memory `userStates : Map<number, UserState>`: an association list
in insertion order (a JS `Map` iterates in insertion order and holds at most
one entry per key). -/
abbrev StateMap := List (Nat × UserState)

/-- `userStates.get(k)`. -/
def mapGet (m : StateMap) (k : Nat) : Option UserState :=
  (m.find? (fun p => p.1 == k)).map (·.2)

/-- Overwrite every entry whose key is `k` (a JS `Map` has at most one). -/
def setAll (k : Nat) (v : UserState) : StateMap → StateMap
  | [] => []
  | p :: rest => (if p.1 = k then (k, v) else p) :: setAll k v rest

/-- `userStates.set(k, v)`: replace the existing entry in place, else append. -/
def mapSet (m : StateMap) (k : Nat) (v : UserState) : StateMap :=
  if m.any (fun p => p.1 == k) then setAll k v m else m ++ [(k, v)]

/-- Second half of `ensureUserStateInitialized`: set an empty `binomAdid`
when it is `undefined` or `null`. -/
def ensureAdid (st : UserState) : UserState :=
  match st.binomAdid with
  | none => { st with binomAdid := some [] }
  | some _ => st

/-- The state transform performed by `ensureUserStateInitialized(userId, ctx)`:
if `binomSub2` is falsy, set it to `ctx.from?.username || String(userId)`;
if `binomAdid` is `undefined` or `null`, set it to the empty string. -/
def ensuredState (username : Option Str) (uid : Nat) (st : UserState) : UserState :=
  ensureAdid
    (if jsTruthyS st.binomSub2 then st
     else { st with binomSub2 := some (jsOrS username (natToChars uid)) })

/-- `ensureUserStateInitialized(userId, ctx)`: read-or-default the entry,
apply the defaults, store the result. -/
def ensureUserStateInitialized (uid : Nat) (username : Option Str) (m : StateMap) : StateMap :=
  mapSet m uid (ensuredState username uid ((mapGet m uid).getD {}))

/-- One step of `parseDeeplinkPayload`'s `pairs.forEach`: split the pair on
`'_'`; exactly two parts map `ch`/`sub2`/`addinfo` into the state, anything
else is dropped. -/
def applyDeeplinkPair (st : UserState) (pair : Str) : UserState :=
  match splitChar '_' pair with
  | [k, v] =>
    if k = str "ch" then { st with binomAdid := some v }
    else if k = str "sub2" then { st with binomSub2 := some v }
    else if k = str "addinfo" then { st with binomAddinfo := some v }
    else st
  | _ => st

/-- The whole `forEach` over `payload.split('__')`. -/
def applyDeeplinkPairs (payload : Str) (st : UserState) : UserState :=
  (splitUU payload).foldl applyDeeplinkPair st

/-- `parseDeeplinkPayload(payload, userId, ctx)`.  The JS code does
`const state = this.userStates.get(userId) || {}` and mutates `state` in
place, but never calls `userStates.set`.  When the map already holds an
entry, `state` aliases the stored object, so the parsed pairs land in the
map (modelled by the explicit `mapSet`); when there is no entry, the parsed
pairs go into a temporary object that is dropped, and only
`ensureUserStateInitialized` (which re-reads the map) stores anything. -/
def parseDeeplinkPayload (payload : Str) (uid : Nat) (username : Option Str) (m : StateMap) : StateMap :=
  match mapGet m uid with
  | some st =>
      ensureUserStateInitialized uid username
        (mapSet m uid (applyDeeplinkPairs payload st))
  | none => ensureUserStateInitialized uid username m

/-- State write of `sendMessageAndSaveId` / `sendMessageWithOptionalImage`:
record the id of the freshly delivered message for later deletion. -/
def recordMessageId (uid : Nat) (mid : Nat) (m : StateMap) : StateMap :=
  mapSet m uid { (mapGet m uid).getD {} with lastMessageId := some mid }

/-- State write of the `amount_<value>` action handler
(`state.loanAmount = amount`). -/
def setLoanAmount (uid : Nat) (v : Str) (m : StateMap) : StateMap :=
  mapSet m uid { (mapGet m uid).getD {} with loanAmount := some v }

/-- State write of the `credit_<value>` action handler
(`state.creditHistory = creditHistory`). -/
def setCreditHistory (uid : Nat) (v : Str) (m : StateMap) : StateMap :=
  mapSet m uid { (mapGet m uid).getD {} with creditHistory := some v }

/-- The inbound events of one user that touch the conversation state, with
the id of the reply message each handler delivers. -/
inductive Interaction where
  | start (payload : Option Str) (mid : Nat)
  | beginQ (mid : Nat)
  | amount (value : Str) (mid : Nat)
  | credit (value : Str) (mid : Nat)
  | backToAmount (mid : Nat)
  | nav (mid : Nat)
  | textMsg (mid : Nat)
deriving Repr, DecidableEq

/-- The conversation-state effect of each handler in `setupBotHandlers`:
`/start` runs the attribution parser (with payload) or
`ensureUserStateInitialized` (without), every handler records the id of the
reply it delivers; `amount_`/`credit_` first store the selected value. -/
def applyInteraction (uid : Nat) (username : Option Str) (i : Interaction) (m : StateMap) : StateMap :=
  match i with
  | .start payload mid =>
      let m' := match payload with
        | some p => parseDeeplinkPayload p uid username m
        | none => ensureUserStateInitialized uid username m
      recordMessageId uid mid m'
  | .beginQ mid => recordMessageId uid mid m
  | .amount v mid => recordMessageId uid mid (setLoanAmount uid v m)
  | .credit v mid => recordMessageId uid mid (setCreditHistory uid v m)
  | .backToAmount mid => recordMessageId uid mid m
  | .nav mid => recordMessageId uid mid m
  | .textMsg mid => recordMessageId uid mid m

/-- A parsed WHATWG URL, reduced to what the code observes: everything
before the query string, and the query parameters in order. -/
structure Url where
  base : Str
  params : List (Str × Str)
deriving Repr, DecidableEq

/-- `url.searchParams.set(k, v)`: replace the value of the first entry with
key `k` in place (dropping any further entries with that key), or append. -/
def setParam : List (Str × Str) → Str → Str → List (Str × Str)
  | [], k, v => [(k, v)]
  | (k', v') :: rest, k, v =>
    if k' = k then (k, v) :: rest.filter (fun p => !(p.1 == k))
    else (k', v') :: setParam rest k v

/-- `url.searchParams.get(k)`. -/
def getP (ps : List (Str × Str)) (k : Str) : Option Str :=
  (ps.find? (fun p => p.1 == k)).map (·.2)

/-- One `k=v` piece of a query string (value empty when no `=` occurs). -/
def parseKV (p : Str) : Str × Str :=
  let b := breakAtChar '=' p
  (b.1, b.2.getD [])

/-- Query-string parsing, pieces separated by `&`. -/
def parseParams (q : Str) : List (Str × Str) :=
  if q.isEmpty then [] else (splitChar '&' q).map parseKV

/-- Characters ending the host portion of a URL. -/
def hostStopChar (c : Char) : Bool := c == '/' || c == '?' || c == '#'

/-- `new URL(s)`, reduced to the http(s) case: the constructor succeeds when
`s` carries an `http://`/`https://` scheme followed by a nonempty host, and
throws (here: `none`) otherwise; the query string starts at the first `?`. -/
def parseUrl (s : Str) : Option Url :=
  let rest? : Option Str :=
    if (str "https://").isPrefixOf s then some (s.drop 8)
    else if (str "http://").isPrefixOf s then some (s.drop 7)
    else none
  match rest? with
  | none => none
  | some rest =>
    if (rest.takeWhile (fun c => !hostStopChar c)).isEmpty then none
    else
      match breakAtChar '?' s with
      | (base, none) => some ⟨base, []⟩
      | (base, some q) => some ⟨base, parseParams q⟩

/-- Query serialization for `url.toString()` (percent-encoding modelled as
the identity). -/
def serializeParams : List (Str × Str) → Str
  | [] => []
  | [(k, v)] => k ++ '=' :: v
  | (k, v) :: rest => k ++ '=' :: v ++ '&' :: serializeParams rest

/-- `url.toString()`. -/
def serializeUrl (u : Url) : Str :=
  match u.params with
  | [] => u.base
  | _ => u.base ++ '?' :: serializeParams u.params

/-- The parameter-setting body of `BinomService.formUrl`, acting on an
already-parsed URL: set `source` (only when configured), `adid`, `sub2`,
`ts`, `tgsubid` (only for a truthy user id) and `addinfo` (only when defined
and not whitespace-only). -/
def formUrlCore (source : Str) (u : Url) (adid sub2 : Str) (addinfo : Option Str)
    (userId : Option Nat) (ts : Nat) : Url :=
  let ps := u.params
  let ps := if source.isEmpty then ps else setParam ps (str "source") source
  let ps := setParam ps (str "adid") adid
  let ps := setParam ps (str "sub2") sub2
  let ps := setParam ps (str "ts") (natToChars ts)
  let ps := match jsTruthyN userId with
    | some i => setParam ps (str "tgsubid") (natToChars i)
    | none => ps
  let ps := match addinfo with
    | some s => if (jsTrim s).isEmpty then ps else setParam ps (str "addinfo") s
    | none => ps
  { u with params := ps }

/-- `BinomService.formUrl(baseUrl, adid, sub2, addinfo?, userId?)`: parse the
base URL, add the binom parameters, serialize; on a parse failure the catch
block returns the empty string.  `ts` stands for
`Math.floor(Date.now() / 1000)`, threaded explicitly. -/
def formUrl (source : Str) (baseUrl : Str) (adid sub2 : Str) (addinfo : Option Str)
    (userId : Option Nat) (ts : Nat) : Str :=
  match parseUrl baseUrl with
  | some u => serializeUrl (formUrlCore source u adid sub2 addinfo userId ts)
  | none => []

/-- `BinomService.addBinomParamsToUrl` just forwards to `formUrl`. -/
def addBinomParamsToUrl (source : Str) (baseUrl : Str) (adid sub2 : Str)
    (addinfo : Option Str) (userId : Option Nat) (ts : Nat) : Str :=
  formUrl source baseUrl adid sub2 addinfo userId ts

/-- JS truthiness of an optional environment variable value. -/
def jsTruthyOptS (o : Option Str) : Option Str :=
  match o with
  | none => none
  | some s => if s.isEmpty then none else some s

/-- The fields the `BinomService` constructor assigns (a field stays
`undefined` when its guard fails). -/
structure BinomConfig where
  binomTrackingUrl : Option Str
  binomUserUrl : Option Str
  binomSource : Str
deriving Repr, DecidableEq

/-- The `BinomService` constructor reading `BINOM_URL`, `BINOM_USER_URL` and
`BINOM_SOURCE`: `binomSource = BINOM_SOURCE || ''`; `binomTrackingUrl` is
assigned only when `BINOM_URL` is truthy; `binomUserUrl` is assigned from
`BINOM_USER_URL || BINOM_URL` only when that is truthy. -/
def mkBinomConfig (envUrl envUserUrl envSource : Option Str) : BinomConfig where
  binomTrackingUrl := jsTruthyOptS envUrl
  binomUserUrl :=
    match jsTruthyOptS envUserUrl with
    | some s => some s
    | none => jsTruthyOptS envUrl
  binomSource := (jsTruthyOptS envSource).getD []

/-- `BinomService.formTrackingUrl`: empty string when `BINOM_URL` was not
configured, else `formUrl` against the tracking base. -/
def formTrackingUrl (cfg : BinomConfig) (adid sub2 : Str) (addinfo : Option Str)
    (userId : Option Nat) (ts : Nat) : Str :=
  match cfg.binomTrackingUrl with
  | none => []
  | some b => formUrl cfg.binomSource b adid sub2 addinfo userId ts

/-- `BinomService.formUserUrl`: empty string when neither `BINOM_USER_URL`
nor the `BINOM_URL` fallback was configured, else `formUrl` against the
user-facing base. -/
def formUserUrl (cfg : BinomConfig) (adid sub2 : Str) (addinfo : Option Str)
    (userId : Option Nat) (ts : Nat) : Str :=
  match cfg.binomUserUrl with
  | none => []
  | some b => formUrl cfg.binomSource b adid sub2 addinfo userId ts

/-- `getBinomParams(userId, username, userName)`:
`sub2 = state?.binomSub2 || (userId ? (username || String(userId)) : '')`,
`adid = state?.binomAdid || ''`. -/
def getBinomParams (m : StateMap) (userId : Option Nat) (username : Str) : Str × Str :=
  let st := (jsTruthyN userId).bind (fun uid => mapGet m uid)
  let sub2fb : Str :=
    match jsTruthyN userId with
    | some uid => if username.isEmpty then natToChars uid else username
    | none => []
  (jsOrS (st.bind (·.binomAdid)) [], jsOrS (st.bind (·.binomSub2)) sub2fb)

/-- `String(userId || '')`. -/
def uidStr (userId : Option Nat) : Str :=
  match jsTruthyN userId with
  | some i => natToChars i
  | none => []

/-- The successful-parse path of `buildLink`: set `uid`, `alias`, `name` on
the parsed base URL, then hand `url.toString()` to `addBinomParamsToUrl`.
Re-parsing the string a `URL` object prints is the identity on the
structure, so the composition acts directly on the parsed URL here. -/
def buildLinkCore (u : Url) (userId : Option Nat) (username firstName : Str)
    (adid sub2 addinfo : Str) (source : Str) (ts : Nat) : Url :=
  let ps := setParam u.params (str "uid") (uidStr userId)
  let ps := setParam ps (str "alias") username
  let ps := setParam ps (str "name") firstName
  formUrlCore source { u with params := ps } adid sub2 (some addinfo) (jsTruthyN userId) ts

/-- `buildLink(baseLink, ctx, addinfoOverride?)`.  The resolved `addinfo` is
the override when supplied, else `ctx.from?.first_name || ''`.  On a URL
parse failure the fallback concatenates `uid`/`alias`/`name` by hand and
still goes through `addBinomParamsToUrl`. -/
def buildLink (baseLink : Str) (userId : Option Nat) (username firstName : Str)
    (m : StateMap) (addinfoOverride : Option Str) (source : Str) (ts : Nat) : Str :=
  let ab := getBinomParams m userId username
  let addinfo := addinfoOverride.getD firstName
  match parseUrl baseLink with
  | some u => serializeUrl (buildLinkCore u userId username firstName ab.1 ab.2 addinfo source ts)
  | none =>
    let sep : Str := if baseLink.contains '?' then ['&'] else ['?']
    let link := baseLink ++ sep ++ str "uid=" ++ uidStr userId ++ str "&alias=" ++ username
      ++ str "&name=" ++ firstName
    addBinomParamsToUrl source link ab.1 ab.2 (some addinfo) (jsTruthyN userId) ts

/-- `hasBinomTrackingData(userId)`: a truthy user id whose state exists,
whose `binomAdid` is defined (empty allowed) and whose `binomSub2` is
truthy. -/
def hasBinomTrackingData (m : StateMap) (userId : Option Nat) : Bool :=
  match jsTruthyN userId with
  | none => false
  | some uid =>
    match mapGet m uid with
    | none => false
    | some st => st.binomAdid.isSome && jsTruthyS st.binomSub2

/-- `buildFinalLink(ctx, buttonName)` with `buttonName = data.fourthButtonEn`.
Note the `fourthButtonEn` argument is accepted and then never used by the
body (the code comment says the button name is only for the tracker): the
`addinfo` of the user-facing link is `ctx.from?.first_name || ''`. -/
def buildFinalLink (startAnketa : Str) (fourthButtonEn : Str) (userId : Option Nat)
    (username firstName : Str) (m : StateMap) (source : Str) (ts : Nat) : Str :=
  match jsTruthyN userId with
  | none => buildLink startAnketa userId username firstName m none source ts
  | some uid =>
    if hasBinomTrackingData m userId then
      let st := (mapGet m uid).getD {}
      let adid := jsOrS st.binomAdid []
      let sub2 := st.binomSub2.getD []
      let binomUrl := addBinomParamsToUrl source startAnketa adid sub2 (some firstName) (some uid) ts
      if binomUrl.isEmpty then buildLink startAnketa userId username firstName m none source ts
      else binomUrl
    else buildLink startAnketa userId username firstName m none source ts

/-- Parameter lookup on a produced link string, for stating counterexamples. -/
def linkParam (s : Str) (k : Str) : Option Str :=
  (parseUrl s).bind (fun u => getP u.params k)

/-- A row of the `tg_users` table as the scheduler reads it. -/
structure TgUser where
  id : Nat
  created_at : Int
  message_status_id : Nat
deriving Repr, DecidableEq

/-- `5 * 60 * 1000`. -/
def FIVE_MIN_MS : Int := 5 * 60 * 1000

/-- `15 * 60 * 1000`. -/
def FIFTEEN_MIN_MS : Int := 15 * 60 * 1000

/-- `24 * 60 * 60 * 1000`. -/
def TWENTY_FOUR_H_MS : Int := 24 * 60 * 60 * 1000

/-- `30 * 60 * 60 * 1000`. -/
def THIRTY_H_MS : Int := 30 * 60 * 60 * 1000

/-- The `if/else-if` chain of `handleScheduledMessages`: the next status to
schedule for a fetched row, or `none` when no stage transition is due. -/
def dueNext (now : Int) (u : TgUser) : Option Nat :=
  if u.message_status_id = 0 ∧ u.created_at ≤ now - FIVE_MIN_MS then some 1
  else if u.message_status_id = 1 ∧ u.created_at ≤ now - FIFTEEN_MIN_MS then some 2
  else if u.message_status_id = 2 ∧ u.created_at ≤ now - TWENTY_FOUR_H_MS then some 3
  else if u.message_status_id = 3 ∧ u.created_at ≤ now - THIRTY_H_MS then some 4
  else none

/-- Insertion step of `ORDER BY created_at ASC`. -/
def insertByCreated (u : TgUser) : List TgUser → List TgUser
  | [] => [u]
  | v :: vs => if u.created_at ≤ v.created_at then u :: v :: vs else v :: insertByCreated u vs

/-- `ORDER BY created_at ASC` as an insertion sort. -/
def sortByCreated : List TgUser → List TgUser
  | [] => []
  | u :: us => insertByCreated u (sortByCreated us)

/-- `getUsersWithPendingScheduledMessages()`:
`WHERE message_status_id < 4 ORDER BY created_at ASC`. -/
def getUsersWithPendingScheduledMessages (table : List TgUser) : List TgUser :=
  sortByCreated (table.filter (fun u => decide (u.message_status_id < 4)))

/-- `setMessageStatusId(userId, statusId)`: update the row with that id
(and bump `updated_at`, not modelled). -/
def setMessageStatusId (table : List TgUser) (uid : Nat) (st : Nat) : List TgUser :=
  table.map fun u => if u.id = uid then { u with message_status_id := st } else u

/-- One scheduled stage's configuration (`data.scheduled[key]`). -/
structure ScheduledCfg where
  text : Str
  link : Str
deriving Repr, DecidableEq

/-- Outcome of one `sendScheduledMessage(userId, key, nextStatusId)` call:
whether the message reply went out, and the status value written (if any).
The send itself is external I/O; `sendOk` says whether
`sendTextToUser` completed or threw. -/
structure SendOutcome where
  sent : Bool
  statusWritten : Option Nat
deriving Repr, DecidableEq

/-- `sendScheduledMessage`: missing stage configuration returns before
sending; a throwing send aborts before `setMessageStatusId`; only a
completed send is followed by the status write. -/
def sendScheduledMessage (cfg : Option ScheduledCfg) (sendOk : Bool) (nextStatusId : Nat) : SendOutcome :=
  match cfg with
  | none => ⟨false, none⟩
  | some _ => if sendOk then ⟨true, some nextStatusId⟩ else ⟨false, none⟩

/-- Effect of one fetched user's `scheduleSend`/`sendScheduledMessage` on the
table: apply the status write the send produced (if any). -/
def sweepStep (now : Int) (cfg : Nat → Option ScheduledCfg) (sendOk : Nat → Bool)
    (t : List TgUser) (u : TgUser) : List TgUser :=
  match dueNext now u with
  | some n =>
    match (sendScheduledMessage (cfg n) (sendOk u.id) n).statusWritten with
    | some st => setMessageStatusId t u.id st
    | none => t
  | none => t

/-- One cron sweep of `handleScheduledMessages`, with the jittered sends
idealized as completing within the sweep: fetch the pending users, walk them
in order, apply each resulting status write. -/
def runSweep (now : Int) (cfg : Nat → Option ScheduledCfg) (sendOk : Nat → Bool)
    (table : List TgUser) : List TgUser :=
  (getUsersWithPendingScheduledMessages table).foldl (sweepStep now cfg sendOk) table

/-- Stage configuration present for every stage. -/
def allCfg : Nat → Option ScheduledCfg := fun _ => some ⟨[], []⟩

/-- `handleScheduledMessages` when every stage is configured and every send
succeeds. -/
def handleScheduledMessages (now : Int) (table : List TgUser) : List TgUser :=
  runSweep now allCfg (fun _ => true) table

/-- The row a `WHERE id = :userId` lookup returns. -/
def rowById (table : List TgUser) (i : Nat) : Option TgUser :=
  table.find? (fun u => u.id == i)

/-- The observable effects of one callback-handler invocation: the
conversation-state map afterwards, the `(id, alias)` upserts sent to the
user registry, and the number of replies delivered. -/
structure HandlerEffects where
  states : StateMap
  registryWrites : List (Nat × Option Str)
  replies : Nat
deriving Repr, DecidableEq

/-- The `amount_<value>` action handler: acknowledge the callback, then
`if (!userId) return;`; otherwise upsert the user, store `loanAmount`, reply
with the credit-history menu (recording its message id). -/
def amountHandler (userId : Option Nat) (username : Option Str) (value : Str)
    (mid : Nat) (m : StateMap) : HandlerEffects :=
  match jsTruthyN userId with
  | none => ⟨m, [], 0⟩
  | some uid => ⟨recordMessageId uid mid (setLoanAmount uid value m), [(uid, username)], 1⟩

/-- The `credit_<value>` action handler: acknowledge the callback, then
`if (!userId) return;`; otherwise upsert the user, store `creditHistory`,
reply with the final offer link (recording its message id). -/
def creditHandler (userId : Option Nat) (username : Option Str) (value : Str)
    (mid : Nat) (m : StateMap) : HandlerEffects :=
  match jsTruthyN userId with
  | none => ⟨m, [], 0⟩
  | some uid => ⟨recordMessageId uid mid (setCreditHistory uid value m), [(uid, username)], 1⟩

/-- The `binomSub2` field of a user's stored state, if any. -/
def sub2At (m : StateMap) (uid : Nat) : Option Str :=
  (mapGet m uid).bind (·.binomSub2)

/-- The `binomAdid` field of a user's stored state, if any. -/
def adidAt (m : StateMap) (uid : Nat) : Option Str :=
  (mapGet m uid).bind (·.binomAdid)

/-- What one sweep does to a single fetched row: the status write produced
by its send, applied to the row. -/
def sweepOutcomeRow (now : Int) (cfg : Nat → Option ScheduledCfg) (sendOk : Nat → Bool)
    (u : TgUser) : TgUser :=
  match dueNext now u with
  | some n =>
    match (sendScheduledMessage (cfg n) (sendOk u.id) n).statusWritten with
    | some st => { u with message_status_id := st }
    | none => u
  | none => u

theorem natToChars_ne_nil (n : Nat) : natToChars n ≠ [] := by
  unfold natToChars natCharsAux
  by_cases h : n < 10 <;> simp [h]

theorem jsOrS_natToChars_ne_nil (a : Option Str) (n : Nat) : jsOrS a (natToChars n) ≠ [] := by
  unfold jsOrS
  cases a with
  | none => simp [jsTruthyS, natToChars_ne_nil]
  | some s =>
    by_cases h : s = []
    · subst h; simp [jsTruthyS, natToChars_ne_nil]
    · simp [jsTruthyS, h, List.isEmpty_iff]

theorem mapGet_setAll_self (k : Nat) (v : UserState) (m : StateMap)
    (h : m.any (fun p => p.1 == k) = true) : mapGet (setAll k v m) k = some v := by
  induction m with
  | nil => simp at h
  | cons p rest ih =>
    by_cases hp : p.1 = k
    · simp [setAll, hp, mapGet, List.find?_cons]
    · have hp' : (p.1 == k) = false := by simpa using hp
      have h' : rest.any (fun p => p.1 == k) = true := by
        simpa [List.any_cons, hp'] using h
      have ihh := ih h'
      simpa [setAll, hp, hp', mapGet, List.find?_cons] using ihh

theorem mapGet_append_single (k : Nat) (v : UserState) (m : StateMap)
    (h : m.any (fun p => p.1 == k) = false) : mapGet (m ++ [(k, v)]) k = some v := by
  induction m with
  | nil => simp [mapGet, List.find?_cons]
  | cons p rest ih =>
    have hp' : (p.1 == k) = false := by
      by_cases hp : p.1 = k
      · exfalso; simp [List.any_cons, hp] at h
      · simpa using hp
    have h' : rest.any (fun p => p.1 == k) = false := by
      simp [List.any_cons, hp'] at h
      simpa using h
    have ihh := ih h'
    simpa [mapGet, List.find?_cons, hp'] using ihh

theorem mapGet_mapSet_self (m : StateMap) (k : Nat) (v : UserState) :
    mapGet (mapSet m k v) k = some v := by
  unfold mapSet
  by_cases h : m.any (fun p => p.1 == k) = true
  · simp [h, mapGet_setAll_self k v m h]
  · have h' : m.any (fun p => p.1 == k) = false := Bool.eq_false_iff.mpr h
    simp [h', mapGet_append_single k v m h']

theorem setAll_setAll (k : Nat) (v : UserState) (m : StateMap) :
    setAll k v (setAll k v m) = setAll k v m := by
  induction m with
  | nil => rfl
  | cons p rest ih =>
    by_cases hp : p.1 = k
    · simp [setAll, hp, ih]
    · simp [setAll, hp, ih]

theorem any_setAll (k : Nat) (v : UserState) (m : StateMap) :
    (setAll k v m).any (fun p => p.1 == k) = m.any (fun p => p.1 == k) := by
  induction m with
  | nil => rfl
  | cons p rest ih =>
    by_cases hp : p.1 = k
    · simp [setAll, hp]
    · simp [setAll, hp, ih]

theorem setAll_of_all_ne (k : Nat) (v : UserState) (m : StateMap)
    (h : m.any (fun p => p.1 == k) = false) : setAll k v m = m := by
  induction m with
  | nil => rfl
  | cons p rest ih =>
    have hp : (p.1 == k) = false := by
      by_cases hp' : p.1 = k
      · exfalso; simp [List.any_cons, hp'] at h
      · simpa using hp'
    have h' : rest.any (fun p => p.1 == k) = false := by
      simp [List.any_cons, hp] at h
      simpa using h
    have hp'' : ¬ p.1 = k := by simpa using hp
    simp [setAll, hp'', ih h']

theorem setAll_append (k : Nat) (v : UserState) (m1 m2 : StateMap) :
    setAll k v (m1 ++ m2) = setAll k v m1 ++ setAll k v m2 := by
  induction m1 with
  | nil => rfl
  | cons p rest ih => simp [setAll, ih]

theorem mapSet_idem (m : StateMap) (k : Nat) (v : UserState) :
    mapSet (mapSet m k v) k v = mapSet m k v := by
  by_cases h : m.any (fun p => p.1 == k) = true
  · have h2 : (setAll k v m).any (fun p => p.1 == k) = true := by
      rw [any_setAll]; exact h
    simp [mapSet, h, h2, setAll_setAll]
  · have h' : m.any (fun p => p.1 == k) = false := Bool.eq_false_iff.mpr h
    have h2 : (m ++ [(k, v)]).any (fun p => p.1 == k) = true := by
      simp [List.any_append]
    simp [mapSet, h', h2, setAll_append, setAll_of_all_ne k v m h', setAll]

theorem jsTruthyS_isSome {o : Option Str} (h : jsTruthyS o = true) : o.isSome = true := by
  cases o with
  | none => simp [jsTruthyS] at h
  | some s => rfl

theorem ensureAdid_adid_isSome (st : UserState) : (ensureAdid st).binomAdid.isSome = true := by
  unfold ensureAdid
  split <;> simp_all

theorem ensureAdid_sub2 (st : UserState) : (ensureAdid st).binomSub2 = st.binomSub2 := by
  unfold ensureAdid
  split <;> rfl

theorem ensuredState_adid_isSome (un : Option Str) (uid : Nat) (st : UserState) :
    (ensuredState un uid st).binomAdid.isSome = true := by
  unfold ensuredState
  exact ensureAdid_adid_isSome _

theorem ensuredState_sub2_truthy (un : Option Str) (uid : Nat) (st : UserState) :
    jsTruthyS (ensuredState un uid st).binomSub2 = true := by
  unfold ensuredState
  rw [ensureAdid_sub2]
  by_cases h : jsTruthyS st.binomSub2
  · simpa [h] using h
  · simp only [h, Bool.false_eq_true, if_false]
    simp [jsTruthyS, List.isEmpty_iff, jsOrS_natToChars_ne_nil]

theorem ensuredState_sub2_isSome (un : Option Str) (uid : Nat) (st : UserState) :
    (ensuredState un uid st).binomSub2.isSome = true :=
  jsTruthyS_isSome (ensuredState_sub2_truthy un uid st)

theorem ensuredState_eq_of_initialized (un : Option Str) (uid : Nat) (st : UserState)
    (h1 : jsTruthyS st.binomSub2 = true) (h2 : st.binomAdid.isSome = true) :
    ensuredState un uid st = st := by
  unfold ensuredState ensureAdid
  simp only [h1, if_true]
  split <;> simp_all

theorem ensuredState_sub2_of_falsy (un : Option Str) (uid : Nat) (st : UserState)
    (h : jsTruthyS st.binomSub2 = false) :
    (ensuredState un uid st).binomSub2 = some (jsOrS un (natToChars uid)) := by
  unfold ensuredState
  rw [ensureAdid_sub2]
  simp [h]

theorem mapGet_ensure (uid : Nat) (un : Option Str) (m : StateMap) :
    mapGet (ensureUserStateInitialized uid un m) uid
      = some (ensuredState un uid ((mapGet m uid).getD {})) := by
  unfold ensureUserStateInitialized
  exact mapGet_mapSet_self ..

/-- Claim C7: `ensureUserStateInitialized` is idempotent — a second call for
the same user, with any fallback handle, returns the map of the first call
unchanged, so it never overwrites the `attributionSubject` or
`attributionChannel` values the first call left in place. -/
theorem ensureUserStateInitialized_idempotent (m : StateMap) (uid : Nat) (u1 u2 : Option Str) :
    ensureUserStateInitialized uid u2 (ensureUserStateInitialized uid u1 m)
      = ensureUserStateInitialized uid u1 m := by
  conv_lhs => rw [ensureUserStateInitialized, mapGet_ensure]
  rw [Option.getD_some,
    ensuredState_eq_of_initialized u2 uid _ (ensuredState_sub2_truthy ..) (ensuredState_adid_isSome ..)]
  exact mapSet_idem ..

/-- Claim C9: a stored `binomSub2` equal to the empty string is treated as
unset — `ensureUserStateInitialized` overwrites it with the fallback handle
(`username || String(userId)`), which is never empty; the last conjunct
shows a deep-link pair `sub2_` with empty value does produce an
empty-string subject for the parser loop to hand to initialization. -/
theorem empty_subject_overwritten_by_fallback :
    ∀ (m : StateMap) (uid : Nat) (username : Option Str) (st : UserState),
      mapGet m uid = some st → st.binomSub2 = some [] →
      sub2At (ensureUserStateInitialized uid username m) uid
          = some (jsOrS username (natToChars uid))
        ∧ jsOrS username (natToChars uid) ≠ []
        ∧ (applyDeeplinkPairs (str "ch_x__sub2_") {}).binomSub2 = some [] := by
  intro m uid username st hget hsub
  refine ⟨?_, jsOrS_natToChars_ne_nil username uid, by decide⟩
  unfold sub2At
  rw [mapGet_ensure, hget, Option.getD_some, Option.some_bind]
  exact ensuredState_sub2_of_falsy username uid st (by simp [hsub, jsTruthyS])

/-- Claim C10: an `amount_<value>` or `credit_<value>` callback carrying no
user id returns right after acknowledging the callback: the conversation
state map is unchanged, no registry upsert happens and no reply is sent. -/
theorem callback_without_user_id_has_no_effects :
    ∀ (username : Option Str) (value : Str) (mid : Nat) (m : StateMap),
      amountHandler none username value mid m = ⟨m, [], 0⟩ ∧
      creditHandler none username value mid m = ⟨m, [], 0⟩ := by
  intro _ _ _ _
  exact ⟨rfl, rfl⟩

/-- Claim C3 (code bug): for a first-time user (no `userStates` entry) the
deep-link payload `ch_promo1__sub2_alice__addinfo_hello` is parsed into a
temporary object that is never stored — the map instead receives only the
`ensureUserStateInitialized` defaults (`adid = ''`, `sub2 = username`),
contradicting the documented contract that parsing sets
`attributionChannel=A, attributionSubject=B, attributionNote=C`.  The second
conjunct shows the same payload does land in the state when an entry already
exists (the in-place mutation aliases the stored object), isolating the
missing store as the slip. -/
theorem deeplink_attribution_dropped_for_fresh_user :
    mapGet (parseDeeplinkPayload (str "ch_promo1__sub2_alice__addinfo_hello") 7
        (some (str "bob")) []) 7
      = some { binomAdid := some [], binomSub2 := some (str "bob") } ∧
    mapGet (parseDeeplinkPayload (str "ch_promo1__sub2_alice__addinfo_hello") 7
        (some (str "bob")) [(7, {})]) 7
      = some { binomAdid := some (str "promo1"), binomSub2 := some (str "alice"),
               binomAddinfo := some (str "hello") } := by
  exact ⟨by decide, by decide⟩

/-- Claim C8: with no `BINOM_URL` configured `formTrackingUrl` returns the
empty string, and with neither `BINOM_USER_URL` nor the `BINOM_URL` fallback
configured `formUserUrl` returns the empty string, for every combination of
the remaining arguments; both are total functions (the JS catch blocks map
every failure to the same empty string). -/
theorem binom_unconfigured_returns_empty_string :
    ∀ (envUrl envUserUrl envSource : Option Str) (adid sub2 : Str) (addinfo : Option Str)
      (userId : Option Nat) (ts : Nat),
      (jsTruthyOptS envUrl = none →
        formTrackingUrl (mkBinomConfig envUrl envUserUrl envSource) adid sub2 addinfo userId ts = []) ∧
      (jsTruthyOptS envUrl = none → jsTruthyOptS envUserUrl = none →
        formUserUrl (mkBinomConfig envUrl envUserUrl envSource) adid sub2 addinfo userId ts = []) := by
  intro envUrl envUserUrl envSource adid sub2 addinfo userId ts
  constructor
  · intro h
    simp [formTrackingUrl, mkBinomConfig, h]
  · intro h h2
    simp [formUserUrl, mkBinomConfig, h, h2]

/-- Witness for C8 at concrete configurations. -/
theorem binom_unconfigured_returns_empty_string_witness :
    formTrackingUrl (mkBinomConfig none (some (str "https://u.example/c")) (some (str "src")))
        (str "a") (str "b") none (some 7) 5 = [] ∧
    formUserUrl (mkBinomConfig (some []) none none) (str "a") (str "b") (some (str "x")) none 5 = [] :=
  ⟨(binom_unconfigured_returns_empty_string none (some (str "https://u.example/c")) (some (str "src"))
      (str "a") (str "b") none (some 7) 5).1 rfl,
   (binom_unconfigured_returns_empty_string (some []) none none
      (str "a") (str "b") (some (str "x")) none 5).2 (by decide) (by decide)⟩

/-- Witness for C9 at a concrete map. -/
theorem empty_subject_overwritten_by_fallback_witness :
    sub2At (ensureUserStateInitialized 7 none [(7, { binomSub2 := some [] })]) 7
        = some (jsOrS none (natToChars 7))
      ∧ jsOrS none (natToChars 7) ≠ []
      ∧ (applyDeeplinkPairs (str "ch_x__sub2_") {}).binomSub2 = some [] :=
  empty_subject_overwritten_by_fallback [(7, { binomSub2 := some [] })] 7 none
    { binomSub2 := some [] } (by decide) rfl

theorem sub2At_recordMessageId (uid mid : Nat) (m : StateMap) :
    sub2At (recordMessageId uid mid m) uid = sub2At m uid := by
  unfold sub2At recordMessageId
  rw [mapGet_mapSet_self, Option.some_bind]
  cases h : mapGet m uid <;> simp [h]

theorem sub2At_setLoanAmount (uid : Nat) (v : Str) (m : StateMap) :
    sub2At (setLoanAmount uid v m) uid = sub2At m uid := by
  unfold sub2At setLoanAmount
  rw [mapGet_mapSet_self, Option.some_bind]
  cases h : mapGet m uid <;> simp [h]

theorem sub2At_setCreditHistory (uid : Nat) (v : Str) (m : StateMap) :
    sub2At (setCreditHistory uid v m) uid = sub2At m uid := by
  unfold sub2At setCreditHistory
  rw [mapGet_mapSet_self, Option.some_bind]
  cases h : mapGet m uid <;> simp [h]

theorem adidAt_recordMessageId (uid mid : Nat) (m : StateMap) :
    adidAt (recordMessageId uid mid m) uid = adidAt m uid := by
  unfold adidAt recordMessageId
  rw [mapGet_mapSet_self, Option.some_bind]
  cases h : mapGet m uid <;> simp [h]

theorem sub2At_ensure_isSome (uid : Nat) (un : Option Str) (m : StateMap) :
    (sub2At (ensureUserStateInitialized uid un m) uid).isSome = true := by
  unfold sub2At
  rw [mapGet_ensure, Option.some_bind]
  exact ensuredState_sub2_isSome ..

theorem adidAt_ensure_isSome (uid : Nat) (un : Option Str) (m : StateMap) :
    (adidAt (ensureUserStateInitialized uid un m) uid).isSome = true := by
  unfold adidAt
  rw [mapGet_ensure, Option.some_bind]
  exact ensuredState_adid_isSome ..

theorem sub2At_parse_isSome (p : Str) (uid : Nat) (un : Option Str) (m : StateMap) :
    (sub2At (parseDeeplinkPayload p uid un m) uid).isSome = true := by
  unfold parseDeeplinkPayload
  cases h : mapGet m uid <;> simp [h, sub2At_ensure_isSome]

theorem adidAt_parse_isSome (p : Str) (uid : Nat) (un : Option Str) (m : StateMap) :
    (adidAt (parseDeeplinkPayload p uid un m) uid).isSome = true := by
  unfold parseDeeplinkPayload
  cases h : mapGet m uid <;> simp [h, adidAt_ensure_isSome]

theorem sub2At_applyInteraction (uid : Nat) (un : Option Str) (i : Interaction) (m : StateMap)
    (h : (sub2At m uid).isSome = true) :
    (sub2At (applyInteraction uid un i m) uid).isSome = true := by
  cases i with
  | start payload mid =>
    cases payload with
    | some p =>
      simp [applyInteraction, sub2At_recordMessageId, sub2At_parse_isSome]
    | none =>
      simp [applyInteraction, sub2At_recordMessageId, sub2At_ensure_isSome]
  | beginQ mid => simpa [applyInteraction, sub2At_recordMessageId] using h
  | amount v mid =>
    simpa [applyInteraction, sub2At_recordMessageId, sub2At_setLoanAmount] using h
  | credit v mid =>
    simpa [applyInteraction, sub2At_recordMessageId, sub2At_setCreditHistory] using h
  | backToAmount mid => simpa [applyInteraction, sub2At_recordMessageId] using h
  | nav mid => simpa [applyInteraction, sub2At_recordMessageId] using h
  | textMsg mid => simpa [applyInteraction, sub2At_recordMessageId] using h

/-- Claim C6 counterexample: a user with no stored state presses
`amount_5000`; afterwards their state exists (with `loanAmount` and the
reply's message id) but `attributionChannel` (`binomAdid`) is absent, so
"attributionChannel is a defined string after any interaction" fails as
stated. -/
theorem channel_undefined_after_amount_callback :
    adidAt (applyInteraction 7 (some (str "bob")) (.amount (str "5000") 100) []) 7 = none
      ∧ mapGet (applyInteraction 7 (some (str "bob")) (.amount (str "5000") 100) []) 7
          = some { loanAmount := some (str "5000"), lastMessageId := some 100 } :=
  ⟨by decide, by decide⟩

/-- Claim C6 (amended): once `attributionSubject` (`binomSub2`) is set it is
never unset by any later handler, over single interactions and over any
interaction sequence; and `attributionChannel` (`binomAdid`) is a defined
string after any `/start` interaction (which runs the parser or
`ensureUserStateInitialized`).  The amount/credit and reply-recording
handlers, however, can create state without defining the channel — see the
counterexample. -/
theorem attribution_state_invariant_amended :
    (∀ (uid : Nat) (un : Option Str) (i : Interaction) (m : StateMap),
        (sub2At m uid).isSome = true →
        (sub2At (applyInteraction uid un i m) uid).isSome = true) ∧
    (∀ (uid : Nat) (un : Option Str) (il : List Interaction) (m : StateMap),
        (sub2At m uid).isSome = true →
        (sub2At (il.foldl (fun acc i => applyInteraction uid un i acc) m) uid).isSome = true) ∧
    (∀ (uid : Nat) (un : Option Str) (payload : Option Str) (mid : Nat) (m : StateMap),
        (adidAt (applyInteraction uid un (.start payload mid) m) uid).isSome = true) := by
  refine ⟨sub2At_applyInteraction, ?_, ?_⟩
  · intro uid un il
    induction il with
    | nil => intro m h; simpa using h
    | cons i rest ih =>
      intro m h
      exact ih (applyInteraction uid un i m) (sub2At_applyInteraction uid un i m h)
  · intro uid un payload mid m
    cases payload with
    | some p => simp [applyInteraction, adidAt_recordMessageId, adidAt_parse_isSome]
    | none => simp [applyInteraction, adidAt_recordMessageId, adidAt_ensure_isSome]

/-- Witness for the amended C6 at concrete inputs. -/
theorem attribution_state_invariant_amended_witness :
    (sub2At [(7, { binomSub2 := some (str "alice") })] 7).isSome = true ∧
    (sub2At (applyInteraction 7 none (.amount (str "5000") 1)
        [(7, { binomSub2 := some (str "alice") })]) 7).isSome = true ∧
    (sub2At (([.amount (str "5000") 1, .credit (str "good") 2] :
          List Interaction).foldl (fun acc i => applyInteraction 7 none i acc)
        [(7, { binomSub2 := some (str "alice") })]) 7).isSome = true ∧
    (adidAt (applyInteraction 7 none (.start (some (str "ch_promo")) 2) []) 7).isSome = true :=
  ⟨by decide,
   attribution_state_invariant_amended.1 7 none (.amount (str "5000") 1)
     [(7, { binomSub2 := some (str "alice") })] (by decide),
   attribution_state_invariant_amended.2.1 7 none [.amount (str "5000") 1, .credit (str "good") 2]
     [(7, { binomSub2 := some (str "alice") })] (by decide),
   attribution_state_invariant_amended.2.2 7 none (some (str "ch_promo")) 2 []⟩

theorem perm_insertByCreated (u : TgUser) (l : List TgUser) :
    List.Perm (insertByCreated u l) (u :: l) := by
  induction l with
  | nil => exact List.Perm.refl _
  | cons v vs ih =>
    by_cases h : u.created_at ≤ v.created_at
    · simp only [insertByCreated, if_pos h]
      exact List.Perm.refl _
    · simp only [insertByCreated, if_neg h]
      exact (ih.cons v).trans (List.Perm.swap u v vs)

theorem perm_sortByCreated (l : List TgUser) : List.Perm (sortByCreated l) l := by
  induction l with
  | nil => exact List.Perm.refl _
  | cons u us ih =>
    exact (perm_insertByCreated u (sortByCreated us)).trans (ih.cons u)

theorem mem_insertByCreated {x u : TgUser} {l : List TgUser} :
    x ∈ insertByCreated u l ↔ x = u ∨ x ∈ l := by
  have := (perm_insertByCreated u l).mem_iff (a := x)
  simpa using this

theorem pairwise_insertByCreated (u : TgUser) (l : List TgUser)
    (h : l.Pairwise (fun a b => a.created_at ≤ b.created_at)) :
    (insertByCreated u l).Pairwise (fun a b => a.created_at ≤ b.created_at) := by
  induction l with
  | nil => simp [insertByCreated]
  | cons v vs ih =>
    rcases List.pairwise_cons.mp h with ⟨hv, hvs⟩
    by_cases hle : u.created_at ≤ v.created_at
    · simp only [insertByCreated, if_pos hle]
      refine List.pairwise_cons.mpr ⟨?_, h⟩
      intro b hb
      rcases List.mem_cons.mp hb with rfl | hbvs
      · exact hle
      · exact le_trans hle (hv b hbvs)
    · simp only [insertByCreated, if_neg hle]
      refine List.pairwise_cons.mpr ⟨?_, ih hvs⟩
      intro b hb
      rcases mem_insertByCreated.mp hb with rfl | hbvs
      · exact le_of_not_le hle
      · exact hv b hbvs

theorem pairwise_sortByCreated (l : List TgUser) :
    (sortByCreated l).Pairwise (fun a b => a.created_at ≤ b.created_at) := by
  induction l with
  | nil => simp [sortByCreated]
  | cons u us ih => exact pairwise_insertByCreated u _ ih

theorem mem_pending_iff (table : List TgUser) (v : TgUser) :
    v ∈ getUsersWithPendingScheduledMessages table
      ↔ v ∈ table ∧ v.message_status_id < 4 := by
  unfold getUsersWithPendingScheduledMessages
  rw [(perm_sortByCreated _).mem_iff, List.mem_filter]
  simp

/-- Claim C1: the engine advances each pending user by exactly one stage per
sweep — every branch of the `if/else-if` chain schedules exactly
`message_status_id + 1` — so a user created 40 hours ago at status 0 moves
only to 1 in one sweep, four consecutive sweeps move it 0→1→2→3→4, the user
then never reappears, and `getUsersWithPendingScheduledMessages` returns
exactly the rows with `message_status_id < 4` ordered by `created_at`
ascending. -/
theorem scheduler_advances_one_stage_per_sweep :
    (∀ (now : Int) (u : TgUser) (n : Nat),
        dueNext now u = some n → n = u.message_status_id + 1) ∧
    (∀ (table : List TgUser) (v : TgUser),
        v ∈ getUsersWithPendingScheduledMessages table
          ↔ v ∈ table ∧ v.message_status_id < 4) ∧
    (∀ table : List TgUser,
        (getUsersWithPendingScheduledMessages table).Pairwise
          (fun a b => a.created_at ≤ b.created_at)) ∧
    (handleScheduledMessages 144000000 [⟨1, 0, 0⟩] = [⟨1, 0, 1⟩]) ∧
    (handleScheduledMessages 144060000 [⟨1, 0, 1⟩] = [⟨1, 0, 2⟩]
      ∧ handleScheduledMessages 144120000 [⟨1, 0, 2⟩] = [⟨1, 0, 3⟩]
      ∧ handleScheduledMessages 144180000 [⟨1, 0, 3⟩] = [⟨1, 0, 4⟩]
      ∧ getUsersWithPendingScheduledMessages [⟨1, 0, 4⟩] = []) := by
  refine ⟨?_, mem_pending_iff, ?_, by decide, by decide, by decide, by decide, by decide⟩
  · intro now u n h
    unfold dueNext at h
    split_ifs at h with h1 h2 h3 h4 <;> simp_all
  · intro table
    exact pairwise_sortByCreated _

/-- Witness for C1 at concrete inputs. -/
theorem scheduler_advances_one_stage_per_sweep_witness :
    ((1 : Nat) = (TgUser.mk 1 0 0).message_status_id + 1) ∧
    (TgUser.mk 1 0 4 ∈ getUsersWithPendingScheduledMessages [⟨1, 0, 4⟩]
      ↔ TgUser.mk 1 0 4 ∈ ([⟨1, 0, 4⟩] : List TgUser)
          ∧ (TgUser.mk 1 0 4).message_status_id < 4) :=
  ⟨scheduler_advances_one_stage_per_sweep.1 144000000 ⟨1, 0, 0⟩ 1 (by decide),
   scheduler_advances_one_stage_per_sweep.2.1 [⟨1, 0, 4⟩] ⟨1, 0, 4⟩⟩

theorem rowById_of_mem_nodup {table : List TgUser} {u : TgUser}
    (hnd : table.Pairwise (fun a b => a.id ≠ b.id)) (hu : u ∈ table) :
    rowById table u.id = some u := by
  induction table with
  | nil => cases hu
  | cons a rest ih =>
    rcases List.pairwise_cons.mp hnd with ⟨ha, hrest⟩
    rcases List.mem_cons.mp hu with rfl | hmem
    · simp [rowById, List.find?_cons]
    · have hne : (a.id == u.id) = false := by simpa using ha u hmem
      have := ih hrest hmem
      simpa [rowById, List.find?_cons, hne] using this

theorem rowById_cons_pos {w : TgUser} {rest : List TgUser} {i : Nat} (h : w.id = i) :
    rowById (w :: rest) i = some w := by
  unfold rowById
  rw [List.find?_cons_of_pos]
  simpa using h

theorem rowById_cons_neg {w : TgUser} {rest : List TgUser} {i : Nat} (h : w.id ≠ i) :
    rowById (w :: rest) i = rowById rest i := by
  unfold rowById
  rw [List.find?_cons_of_neg]
  simpa using h

theorem setMessageStatusId_cons {w : TgUser} {rest : List TgUser} {a st : Nat} :
    setMessageStatusId (w :: rest) a st
      = (if w.id = a then { w with message_status_id := st } else w)
        :: setMessageStatusId rest a st := rfl

theorem rowById_setMessageStatusId_ne {t : List TgUser} {a i st : Nat} (h : a ≠ i) :
    rowById (setMessageStatusId t a st) i = rowById t i := by
  induction t with
  | nil => rfl
  | cons w rest ih =>
    rw [setMessageStatusId_cons]
    by_cases hwa : w.id = a
    · have hni : w.id ≠ i := by rw [hwa]; exact h
      have hni2 : ({ w with message_status_id := st } : TgUser).id ≠ i := hni
      rw [if_pos hwa, rowById_cons_neg hni2, rowById_cons_neg hni, ih]
    · by_cases hwi : w.id = i
      · rw [if_neg hwa, rowById_cons_pos hwi, rowById_cons_pos hwi]
      · rw [if_neg hwa, rowById_cons_neg hwi, rowById_cons_neg hwi, ih]

theorem rowById_setMessageStatusId_self {t : List TgUser} {i st : Nat} {u : TgUser}
    (h : rowById t i = some u) :
    rowById (setMessageStatusId t i st) i = some { u with message_status_id := st } := by
  induction t with
  | nil => simp [rowById] at h
  | cons w rest ih =>
    rw [setMessageStatusId_cons]
    by_cases hwi : w.id = i
    · have hwu : w = u := by
        rw [rowById_cons_pos hwi] at h
        exact Option.some.inj h
      subst hwu
      rw [if_pos hwi]
      exact rowById_cons_pos hwi
    · rw [rowById_cons_neg hwi] at h
      rw [if_neg hwi, rowById_cons_neg hwi]
      exact ih h

theorem sweepStep_rowById_ne {now : Int} {cfg : Nat → Option ScheduledCfg} {f : Nat → Bool}
    {t : List TgUser} {w : TgUser} {i : Nat} (h : w.id ≠ i) :
    rowById (sweepStep now cfg f t w) i = rowById t i := by
  unfold sweepStep
  cases hd : dueNext now w with
  | none => rfl
  | some n =>
    cases hsw : (sendScheduledMessage (cfg n) (f w.id) n).statusWritten with
    | none => simp [hsw]
    | some st => simp [hsw, rowById_setMessageStatusId_ne h]

theorem foldl_sweepStep_not_touching {now : Int} {cfg : Nat → Option ScheduledCfg}
    {f : Nat → Bool} {i : Nat} :
    ∀ (l t : List TgUser), (∀ w ∈ l, w.id ≠ i) →
      rowById (l.foldl (sweepStep now cfg f) t) i = rowById t i := by
  intro l
  induction l with
  | nil => intro t _; rfl
  | cons w ws ih =>
    intro t hl
    rw [List.foldl_cons, ih _ (fun w' hw' => hl w' (List.mem_cons_of_mem w hw')),
      sweepStep_rowById_ne (hl w (List.mem_cons_self ..))]

theorem foldl_sweepStep_processed {now : Int} {cfg : Nat → Option ScheduledCfg}
    {f : Nat → Bool} {u : TgUser} :
    ∀ (l t : List TgUser),
      l.Pairwise (fun a b => a.id ≠ b.id) →
      (∀ w ∈ l, w.id = u.id → w = u) →
      u ∈ l →
      rowById t u.id = some u →
      rowById (l.foldl (sweepStep now cfg f) t) u.id = some (sweepOutcomeRow now cfg f u) := by
  intro l
  induction l with
  | nil => intro t _ _ hu _; cases hu
  | cons w ws ih =>
    intro t hnd hl hu ht
    rcases List.pairwise_cons.mp hnd with ⟨hw, hws⟩
    rcases List.mem_cons.mp hu with rfl | humem
    · rw [List.foldl_cons,
        foldl_sweepStep_not_touching ws _ (fun w' hw' => (hw w' hw').symm)]
      unfold sweepStep sweepOutcomeRow
      cases hd : dueNext now u with
      | none => simpa using ht
      | some n =>
        cases hsw : (sendScheduledMessage (cfg n) (f u.id) n).statusWritten with
        | none => simpa [hsw] using ht
        | some st => simpa [hsw] using rowById_setMessageStatusId_self ht
    · have hwid : w.id ≠ u.id := by
        intro he
        have hwu : w = u := hl w (List.mem_cons_self ..) he
        subst hwu
        exact (hw w humem) rfl
      rw [List.foldl_cons]
      refine ih _ hws (fun w' hw' => hl w' (List.mem_cons_of_mem _ hw')) humem ?_
      rw [sweepStep_rowById_ne hwid]
      exact ht

theorem eq_of_mem_same_id {table : List TgUser}
    (hnd : table.Pairwise (fun a b => a.id ≠ b.id)) {w u : TgUser}
    (hw : w ∈ table) (hu : u ∈ table) (hid : w.id = u.id) : w = u := by
  induction table with
  | nil => cases hw
  | cons a rest ih =>
    rcases List.pairwise_cons.mp hnd with ⟨ha, hrest⟩
    rcases List.mem_cons.mp hw with rfl | hwm
    · rcases List.mem_cons.mp hu with rfl | hum
      · rfl
      · exact absurd hid (ha u hum)
    · rcases List.mem_cons.mp hu with rfl | hum
      · exact absurd hid.symm (ha w hwm)
      · exact ih hrest hwm hum

theorem pairwise_ne_pending {table : List TgUser}
    (hnd : table.Pairwise (fun a b => a.id ≠ b.id)) :
    (getUsersWithPendingScheduledMessages table).Pairwise (fun a b => a.id ≠ b.id) := by
  unfold getUsersWithPendingScheduledMessages
  have hf : (table.filter fun u => decide (u.message_status_id < 4)).Pairwise
      (fun a b => a.id ≠ b.id) := hnd.filter _
  exact ((perm_sortByCreated _).pairwise_iff (fun h => Ne.symm h)).mpr hf

theorem dueNext_none_of_ge {now : Int} {u : TgUser} (h : ¬ u.message_status_id < 4) :
    dueNext now u = none := by
  unfold dueNext
  split_ifs with h1 h2 h3 h4
  · exact absurd (by omega : u.message_status_id < 4) h
  · exact absurd (by omega : u.message_status_id < 4) h
  · exact absurd (by omega : u.message_status_id < 4) h
  · exact absurd (by omega : u.message_status_id < 4) h
  · rfl

theorem runSweep_rowById {now : Int} {cfg : Nat → Option ScheduledCfg} {f : Nat → Bool}
    {table : List TgUser} {u : TgUser}
    (hnd : table.Pairwise (fun a b => a.id ≠ b.id)) (hu : u ∈ table) :
    rowById (runSweep now cfg f table) u.id = some (sweepOutcomeRow now cfg f u) := by
  unfold runSweep
  by_cases hp : u.message_status_id < 4
  · exact foldl_sweepStep_processed _ table (pairwise_ne_pending hnd)
      (fun w hw hid => eq_of_mem_same_id hnd ((mem_pending_iff ..).mp hw).1 hu hid)
      ((mem_pending_iff ..).mpr ⟨hu, hp⟩) (rowById_of_mem_nodup hnd hu)
  · have hout : sweepOutcomeRow now cfg f u = u := by
      unfold sweepOutcomeRow
      rw [dueNext_none_of_ge hp]
    rw [foldl_sweepStep_not_touching _ table ?_, rowById_of_mem_nodup hnd hu, hout]
    intro w hw he
    have hwu : w = u := eq_of_mem_same_id hnd ((mem_pending_iff ..).mp hw).1 hu he
    subst hwu
    exact hp ((mem_pending_iff ..).mp hw).2

theorem sweepOutcomeRow_of_sendFail {now : Int} {cfg : Nat → Option ScheduledCfg}
    {f : Nat → Bool} {u : TgUser} (h : f u.id = false) :
    sweepOutcomeRow now cfg f u = u := by
  unfold sweepOutcomeRow
  cases hd : dueNext now u with
  | none => rfl
  | some n =>
    rw [h]
    cases hc : cfg n <;> simp [sendScheduledMessage, hc]

/-- Claim C5: a scheduled send must complete before the status write — a
throwing send produces no `setMessageStatusId` call, so the user's persisted
row is unchanged — and one user's send failure is isolated: the sweep's
result row for any user depends only on that user's own send outcome. -/
theorem scheduled_send_failure_isolated :
    (∀ (cfg : Option ScheduledCfg) (ok : Bool) (n : Nat),
        (sendScheduledMessage cfg ok n).statusWritten.isSome = true →
        ok = true ∧ (sendScheduledMessage cfg ok n).sent = true) ∧
    (∀ (now : Int) (cfg : Nat → Option ScheduledCfg) (f : Nat → Bool)
        (table : List TgUser) (u : TgUser),
        table.Pairwise (fun a b => a.id ≠ b.id) → u ∈ table → f u.id = false →
        rowById (runSweep now cfg f table) u.id = some u) ∧
    (∀ (now : Int) (cfg : Nat → Option ScheduledCfg) (f g : Nat → Bool)
        (table : List TgUser) (v : TgUser),
        table.Pairwise (fun a b => a.id ≠ b.id) → v ∈ table → f v.id = g v.id →
        rowById (runSweep now cfg f table) v.id = rowById (runSweep now cfg g table) v.id) := by
  refine ⟨?_, ?_, ?_⟩
  · intro cfg ok n h
    cases cfg <;> cases ok <;> simp_all [sendScheduledMessage]
  · intro now cfg f table u hnd hu hf
    rw [runSweep_rowById hnd hu, sweepOutcomeRow_of_sendFail hf]
  · intro now cfg f g table v hnd hv hfg
    rw [runSweep_rowById hnd hv, runSweep_rowById hnd hv]
    have hout : sweepOutcomeRow now cfg f v = sweepOutcomeRow now cfg g v := by
      unfold sweepOutcomeRow
      rw [hfg]
    rw [hout]

/-- Witness for C5: in a two-user table where only user 1's send fails, user
1's row is unchanged and user 2's row matches the all-sends-succeed run. -/
theorem scheduled_send_failure_isolated_witness :
    (true = true ∧ (sendScheduledMessage (some ⟨[], []⟩) true 1).sent = true) ∧
    rowById (runSweep 144000000 allCfg (fun i => !(i == 1)) [⟨1, 0, 0⟩, ⟨2, 0, 0⟩])
        (TgUser.mk 1 0 0).id = some ⟨1, 0, 0⟩ ∧
    rowById (runSweep 144000000 allCfg (fun i => !(i == 1)) [⟨1, 0, 0⟩, ⟨2, 0, 0⟩])
        (TgUser.mk 2 0 0).id
      = rowById (runSweep 144000000 allCfg (fun _ => true) [⟨1, 0, 0⟩, ⟨2, 0, 0⟩])
        (TgUser.mk 2 0 0).id :=
  ⟨scheduled_send_failure_isolated.1 (some ⟨[], []⟩) true 1 (by decide),
   scheduled_send_failure_isolated.2.1 144000000 allCfg (fun i => !(i == 1))
     [⟨1, 0, 0⟩, ⟨2, 0, 0⟩] ⟨1, 0, 0⟩ (by simp) (by simp) (by decide),
   scheduled_send_failure_isolated.2.2 144000000 allCfg (fun i => !(i == 1)) (fun _ => true)
     [⟨1, 0, 0⟩, ⟨2, 0, 0⟩] ⟨2, 0, 0⟩ (by simp) (by simp) (by decide)⟩

theorem getP_setParam_self (ps : List (Str × Str)) (k v : Str) :
    getP (setParam ps k v) k = some v := by
  induction ps with
  | nil => simp [setParam, getP, List.find?_cons]
  | cons p rest ih =>
    by_cases hp : p.1 = k
    · simp [setParam, hp, getP, List.find?_cons]
    · have hp' : (p.1 == k) = false := by simpa using hp
      simpa [setParam, hp, hp', getP, List.find?_cons] using ih

theorem find?_filter_ne {k kq : Str} (h : kq ≠ k) (ps : List (Str × Str)) :
    (ps.filter (fun p => !(p.1 == k))).find? (fun p => p.1 == kq)
      = ps.find? (fun p => p.1 == kq) := by
  have hkkq : (k == kq) = false := by simpa using (Ne.symm h)
  induction ps with
  | nil => rfl
  | cons p rest ih =>
    obtain ⟨pk, pv⟩ := p
    by_cases hp : pk = k
    · subst hp
      simp [List.filter_cons, List.find?_cons, hkkq, ih]
    · have hpk : (pk == k) = false := by simpa using hp
      by_cases hq : pk = kq
      · subst hq
        simp [List.filter_cons, List.find?_cons, hpk]
      · have hq2 : (pk == kq) = false := by simpa using hq
        simp [List.filter_cons, List.find?_cons, hpk, hq2, ih]

theorem getP_setParam_ne {k kq : Str} (h : kq ≠ k) (ps : List (Str × Str)) (v : Str) :
    getP (setParam ps k v) kq = getP ps kq := by
  have hkkq : (k == kq) = false := by simpa using (Ne.symm h)
  induction ps with
  | nil => simp [setParam, getP, List.find?_cons, hkkq]
  | cons p rest ih =>
    obtain ⟨pk, pv⟩ := p
    by_cases hp : pk = k
    · subst hp
      simp [setParam, getP, List.find?_cons, hkkq, find?_filter_ne h]
    · by_cases hq : pk = kq
      · subst hq
        simp [setParam, hp, getP, List.find?_cons]
      · have hq2 : (pk == kq) = false := by simpa using hq
        simpa [setParam, hp, getP, List.find?_cons, hq2] using ih

theorem mem_setParam_of_ne {p : Str × Str} {k : Str} (h : p.1 ≠ k) (v : Str) :
    ∀ {ps : List (Str × Str)}, p ∈ ps → p ∈ setParam ps k v := by
  intro ps
  induction ps with
  | nil => intro hm; cases hm
  | cons q rest ih =>
    intro hm
    by_cases hq : q.1 = k
    · simp only [setParam, if_pos hq]
      rcases List.mem_cons.mp hm with rfl | hmr
      · exact absurd hq h
      · exact List.mem_cons.mpr (Or.inr (List.mem_filter.mpr ⟨hmr, by simpa using h⟩))
    · simp only [setParam, if_neg hq]
      rcases List.mem_cons.mp hm with rfl | hmr
      · exact List.mem_cons_self ..
      · exact List.mem_cons.mpr (Or.inr (ih hmr))

theorem setParam_ne_nil (ps : List (Str × Str)) (k v : Str) : setParam ps k v ≠ [] := by
  cases ps with
  | nil => simp [setParam]
  | cons p rest =>
    by_cases hp : p.1 = k <;> simp [setParam, hp]

theorem getP_formUrlCore_ne (source : Str) (u : Url) (adid sub2 : Str)
    (addinfo : Option Str) (userId : Option Nat) (ts : Nat) {kq : Str}
    (h1 : kq ≠ str "source") (h2 : kq ≠ str "adid") (h3 : kq ≠ str "sub2")
    (h4 : kq ≠ str "ts") (h5 : kq ≠ str "tgsubid") (h6 : kq ≠ str "addinfo") :
    getP (formUrlCore source u adid sub2 addinfo userId ts).params kq
      = getP u.params kq := by
  unfold formUrlCore
  cases hj : jsTruthyN userId with
  | none =>
    cases addinfo with
    | none =>
      dsimp only
      rw [getP_setParam_ne h4, getP_setParam_ne h3, getP_setParam_ne h2]
      by_cases hs : source.isEmpty
      · simp [hs]
      · simp [hs, getP_setParam_ne h1]
    | some s =>
      dsimp only
      by_cases hts : (jsTrim s).isEmpty
      · rw [if_pos hts, getP_setParam_ne h4, getP_setParam_ne h3, getP_setParam_ne h2]
        by_cases hs : source.isEmpty
        · simp [hs]
        · simp [hs, getP_setParam_ne h1]
      · rw [if_neg hts, getP_setParam_ne h6, getP_setParam_ne h4, getP_setParam_ne h3,
          getP_setParam_ne h2]
        by_cases hs : source.isEmpty
        · simp [hs]
        · simp [hs, getP_setParam_ne h1]
  | some i =>
    cases addinfo with
    | none =>
      dsimp only
      rw [getP_setParam_ne h5, getP_setParam_ne h4, getP_setParam_ne h3, getP_setParam_ne h2]
      by_cases hs : source.isEmpty
      · simp [hs]
      · simp [hs, getP_setParam_ne h1]
    | some s =>
      dsimp only
      by_cases hts : (jsTrim s).isEmpty
      · rw [if_pos hts, getP_setParam_ne h5, getP_setParam_ne h4, getP_setParam_ne h3,
          getP_setParam_ne h2]
        by_cases hs : source.isEmpty
        · simp [hs]
        · simp [hs, getP_setParam_ne h1]
      · rw [if_neg hts, getP_setParam_ne h6, getP_setParam_ne h5, getP_setParam_ne h4,
          getP_setParam_ne h3, getP_setParam_ne h2]
        by_cases hs : source.isEmpty
        · simp [hs]
        · simp [hs, getP_setParam_ne h1]

theorem getP_formUrlCore_addinfo (source : Str) (u : Url) (adid sub2 : Str)
    (f : Str) (userId : Option Nat) (ts : Nat)
    (h0 : getP u.params (str "addinfo") = none) :
    getP (formUrlCore source u adid sub2 (some f) userId ts).params (str "addinfo")
      = (if (jsTrim f).isEmpty then none else some f) := by
  unfold formUrlCore
  cases hj : jsTruthyN userId with
  | none =>
    dsimp only
    by_cases hts : (jsTrim f).isEmpty
    · rw [if_pos hts, if_pos hts,
        getP_setParam_ne (show str "addinfo" ≠ str "ts" by decide),
        getP_setParam_ne (show str "addinfo" ≠ str "sub2" by decide),
        getP_setParam_ne (show str "addinfo" ≠ str "adid" by decide)]
      by_cases hs : source.isEmpty
      · simpa [hs] using h0
      · rw [if_neg (by simp [hs]),
          getP_setParam_ne (show str "addinfo" ≠ str "source" by decide)]
        exact h0
    · rw [if_neg hts, if_neg hts, getP_setParam_self]
  | some i =>
    dsimp only
    by_cases hts : (jsTrim f).isEmpty
    · rw [if_pos hts, if_pos hts,
        getP_setParam_ne (show str "addinfo" ≠ str "tgsubid" by decide),
        getP_setParam_ne (show str "addinfo" ≠ str "ts" by decide),
        getP_setParam_ne (show str "addinfo" ≠ str "sub2" by decide),
        getP_setParam_ne (show str "addinfo" ≠ str "adid" by decide)]
      by_cases hs : source.isEmpty
      · simpa [hs] using h0
      · rw [if_neg (by simp [hs]),
          getP_setParam_ne (show str "addinfo" ≠ str "source" by decide)]
        exact h0
    · rw [if_neg hts, if_neg hts, getP_setParam_self]

theorem mem_sourceStep {p : Str × Str} {source : Str} {ps : List (Str × Str)}
    (h1 : p.1 ≠ str "source") (hm : p ∈ ps) :
    p ∈ (if source.isEmpty = true then ps else setParam ps (str "source") source) := by
  by_cases hs : source.isEmpty
  · simpa [hs] using hm
  · simpa [hs] using mem_setParam_of_ne h1 source hm

theorem mem_formUrlCore_of_ne {p : Str × Str} (source : Str) (u : Url) (adid sub2 : Str)
    (addinfo : Option Str) (userId : Option Nat) (ts : Nat)
    (h1 : p.1 ≠ str "source") (h2 : p.1 ≠ str "adid") (h3 : p.1 ≠ str "sub2")
    (h4 : p.1 ≠ str "ts") (h5 : p.1 ≠ str "tgsubid") (h6 : p.1 ≠ str "addinfo")
    (hm : p ∈ u.params) :
    p ∈ (formUrlCore source u adid sub2 addinfo userId ts).params := by
  unfold formUrlCore
  have m4 : p ∈ setParam (setParam (setParam
      (if source.isEmpty = true then u.params else setParam u.params (str "source") source)
      (str "adid") adid) (str "sub2") sub2) (str "ts") (natToChars ts) :=
    mem_setParam_of_ne h4 _ (mem_setParam_of_ne h3 _ (mem_setParam_of_ne h2 _
      (mem_sourceStep h1 hm)))
  cases hj : jsTruthyN userId with
  | none =>
    cases addinfo with
    | none => exact m4
    | some s =>
      dsimp only
      by_cases hts : (jsTrim s).isEmpty
      · rw [if_pos hts]
        exact m4
      · rw [if_neg hts]
        exact mem_setParam_of_ne h6 _ m4
  | some i =>
    cases addinfo with
    | none => exact mem_setParam_of_ne h5 _ m4
    | some s =>
      dsimp only
      by_cases hts : (jsTrim s).isEmpty
      · rw [if_pos hts]
        exact mem_setParam_of_ne h5 _ m4
      · rw [if_neg hts]
        exact mem_setParam_of_ne h6 _ (mem_setParam_of_ne h5 _ m4)

theorem formUrlCore_params_ne_nil (source : Str) (u : Url) (adid sub2 : Str)
    (addinfo : Option Str) (userId : Option Nat) (ts : Nat) :
    (formUrlCore source u adid sub2 addinfo userId ts).params ≠ [] := by
  unfold formUrlCore
  cases hj : jsTruthyN userId with
  | none =>
    cases addinfo with
    | none =>
      dsimp only
      exact setParam_ne_nil _ _ _
    | some s =>
      dsimp only
      by_cases hts : (jsTrim s).isEmpty
      · rw [if_pos hts]
        exact setParam_ne_nil _ _ _
      · rw [if_neg hts]
        exact setParam_ne_nil _ _ _
  | some i =>
    cases addinfo with
    | none =>
      dsimp only
      exact setParam_ne_nil _ _ _
    | some s =>
      dsimp only
      by_cases hts : (jsTrim s).isEmpty
      · rw [if_pos hts]
        exact setParam_ne_nil _ _ _
      · rw [if_neg hts]
        exact setParam_ne_nil _ _ _

theorem serializeUrl_ne_nil_of_params {u : Url} (h : u.params ≠ []) : serializeUrl u ≠ [] := by
  unfold serializeUrl
  cases hp : u.params with
  | nil => exact absurd hp h
  | cons a l => simp

/-- Claim C2 counterexample: with attribution complete (`adid=promo`,
`sub2=alice`) and `fourthButtonEn = "apply"`, the user-facing offer link's
`addinfo` is the user's first name `Bob`, not the configured button label. -/
theorem final_link_addinfo_not_button_label :
    linkParam (buildFinalLink (str "https://x.example/p") (str "apply") (some 7)
        (str "bob") (str "Bob")
        [(7, { binomAdid := some (str "promo"), binomSub2 := some (str "alice") })]
        (str "src1") 1000) (str "addinfo") = some (str "Bob")
      ∧ str "Bob" ≠ str "apply" :=
  ⟨by decide, by decide⟩

/-- Claim C2 (amended): for every `credit_<value>` completion with complete
attribution, the final user-facing offer link is the configured base with
binom parameters whose `addinfo` is the user's *first name* (omitted when it
is empty or whitespace-only); the button's configured label (the
`fourthButtonEn` argument) does not enter the link — it is used only for the
tracking event. -/
theorem final_link_addinfo_is_first_name :
    ∀ (startAnketa fourthButtonEn username firstName source : Str) (uid : Nat) (m : StateMap)
      (ts : Nat) (u : Url),
      uid ≠ 0 →
      hasBinomTrackingData m (some uid) = true →
      parseUrl startAnketa = some u →
      getP u.params (str "addinfo") = none →
      buildFinalLink startAnketa fourthButtonEn (some uid) username firstName m source ts
        = serializeUrl (formUrlCore source u (jsOrS ((mapGet m uid).getD {}).binomAdid [])
            (((mapGet m uid).getD {}).binomSub2.getD []) (some firstName) (some uid) ts)
      ∧ getP (formUrlCore source u (jsOrS ((mapGet m uid).getD {}).binomAdid [])
            (((mapGet m uid).getD {}).binomSub2.getD []) (some firstName) (some uid) ts).params
            (str "addinfo")
          = (if (jsTrim firstName).isEmpty then none else some firstName) := by
  intro startAnketa fourthButtonEn username firstName source uid m ts u huid hbi hparse h0
  have hj : jsTruthyN (some uid) = some uid := by simp [jsTruthyN, huid]
  constructor
  · unfold buildFinalLink
    rw [hj]
    dsimp only
    rw [hbi, if_pos rfl]
    unfold addBinomParamsToUrl formUrl
    rw [hparse]
    dsimp only
    rw [if_neg ?hne]
    case hne =>
      intro hh
      exact serializeUrl_ne_nil_of_params
        (formUrlCore_params_ne_nil source u _ _ (some firstName) (some uid) ts)
        (List.isEmpty_iff.mp hh)
  · exact getP_formUrlCore_addinfo source u _ _ firstName (some uid) ts h0

/-- Witness for the amended C2 at concrete inputs. -/
theorem final_link_addinfo_is_first_name_witness :
    buildFinalLink (str "https://x.example/p") (str "apply") (some 7)
        (str "bob") (str "Bob")
        [(7, { binomAdid := some (str "promo"), binomSub2 := some (str "alice") })]
        (str "src1") 1000
      = serializeUrl (formUrlCore (str "src1") ⟨str "https://x.example/p", []⟩
          (jsOrS ((mapGet [(7, { binomAdid := some (str "promo"), binomSub2 := some (str "alice") })] 7).getD {}).binomAdid [])
          (((mapGet [(7, { binomAdid := some (str "promo"), binomSub2 := some (str "alice") })] 7).getD {}).binomSub2.getD [])
          (some (str "Bob")) (some 7) 1000)
      ∧ getP (formUrlCore (str "src1") ⟨str "https://x.example/p", []⟩
          (jsOrS ((mapGet [(7, { binomAdid := some (str "promo"), binomSub2 := some (str "alice") })] 7).getD {}).binomAdid [])
          (((mapGet [(7, { binomAdid := some (str "promo"), binomSub2 := some (str "alice") })] 7).getD {}).binomSub2.getD [])
          (some (str "Bob")) (some 7) 1000).params (str "addinfo")
        = (if (jsTrim (str "Bob")).isEmpty then none else some (str "Bob")) :=
  final_link_addinfo_is_first_name (str "https://x.example/p") (str "apply")
    (str "bob") (str "Bob") (str "src1") 7
    [(7, { binomAdid := some (str "promo"), binomSub2 := some (str "alice") })]
    1000 ⟨str "https://x.example/p", []⟩
    (by decide) (by decide) (by decide) (by decide)

/-- Claim C4 counterexample: the state's `binomAddinfo` is `note` (nonempty
after trimming) but the user's first name is empty and no override is
supplied; the claim demands an `addinfo` parameter, yet `buildLink` omits it
— the resolved note is the override-or-first-name, never the state's note. -/
theorem buildLink_addinfo_ignores_state_note :
    linkParam (buildLink (str "https://x.example/p") (some 7) (str "bob") []
        [(7, { binomAdid := some (str "promo"), binomSub2 := some (str "alice"), binomAddinfo := some (str "note") })]
        none (str "src1") 1000) (str "addinfo") = none
      ∧ (jsTrim (str "note")).isEmpty = false :=
  ⟨by decide, by decide⟩

/-- Claim C4 (amended): for every base URL that `new URL` accepts, and every
conversation state, `buildLink` serializes a URL that preserves every
pre-existing query parameter outside the managed set, always carries `uid`,
`alias` and `name`, and — when the base has no `addinfo` of its own —
carries `addinfo` iff the resolved note (the override if supplied, else the
user's *first name*) is nonempty after trimming. -/
theorem buildLink_param_contract_amended :
    ∀ (baseLink username firstName source : Str) (userId : Option Nat) (m : StateMap)
      (ov : Option Str) (ts : Nat) (u : Url),
      parseUrl baseLink = some u →
      ∃ r : Url,
        r = buildLinkCore u userId username firstName
            (getBinomParams m userId username).1 (getBinomParams m userId username).2
            (ov.getD firstName) source ts
        ∧ buildLink baseLink userId username firstName m ov source ts = serializeUrl r
        ∧ (∀ p ∈ u.params,
            p.1 ∉ ([str "uid", str "alias", str "name", str "source", str "adid", str "sub2",
              str "ts", str "tgsubid", str "addinfo"] : List Str) →
            p ∈ r.params)
        ∧ getP r.params (str "uid") = some (uidStr userId)
        ∧ getP r.params (str "alias") = some username
        ∧ getP r.params (str "name") = some firstName
        ∧ (getP u.params (str "addinfo") = none →
            getP r.params (str "addinfo")
              = (if (jsTrim (ov.getD firstName)).isEmpty then none
                 else some (ov.getD firstName))) := by
  intro baseLink username firstName source userId m ov ts u hparse
  refine ⟨_, rfl, ?_, ?_, ?_, ?_, ?_, ?_⟩
  · unfold buildLink
    rw [hparse]
  · intro p hp hnk
    simp only [List.mem_cons, List.not_mem_nil, or_false, not_or] at hnk
    obtain ⟨n1, n2, n3, n4, n5, n6, n7, n8, n9⟩ := hnk
    unfold buildLinkCore
    exact mem_formUrlCore_of_ne source _ _ _ _ _ ts n4 n5 n6 n7 n8 n9
      (mem_setParam_of_ne n3 _ (mem_setParam_of_ne n2 _ (mem_setParam_of_ne n1 _ hp)))
  · unfold buildLinkCore
    rw [getP_formUrlCore_ne _ _ _ _ _ _ _ (show str "uid" ≠ str "source" by decide)
        (show str "uid" ≠ str "adid" by decide) (show str "uid" ≠ str "sub2" by decide)
        (show str "uid" ≠ str "ts" by decide) (show str "uid" ≠ str "tgsubid" by decide)
        (show str "uid" ≠ str "addinfo" by decide),
      getP_setParam_ne (show str "uid" ≠ str "name" by decide),
      getP_setParam_ne (show str "uid" ≠ str "alias" by decide),
      getP_setParam_self]
  · unfold buildLinkCore
    rw [getP_formUrlCore_ne _ _ _ _ _ _ _ (show str "alias" ≠ str "source" by decide)
        (show str "alias" ≠ str "adid" by decide) (show str "alias" ≠ str "sub2" by decide)
        (show str "alias" ≠ str "ts" by decide) (show str "alias" ≠ str "tgsubid" by decide)
        (show str "alias" ≠ str "addinfo" by decide),
      getP_setParam_ne (show str "alias" ≠ str "name" by decide),
      getP_setParam_self]
  · unfold buildLinkCore
    rw [getP_formUrlCore_ne _ _ _ _ _ _ _ (show str "name" ≠ str "source" by decide)
        (show str "name" ≠ str "adid" by decide) (show str "name" ≠ str "sub2" by decide)
        (show str "name" ≠ str "ts" by decide) (show str "name" ≠ str "tgsubid" by decide)
        (show str "name" ≠ str "addinfo" by decide),
      getP_setParam_self]
  · intro h0
    unfold buildLinkCore
    refine getP_formUrlCore_addinfo source _ _ _ _ (jsTruthyN userId) ts ?_
    show getP (setParam (setParam (setParam u.params (str "uid") (uidStr userId))
        (str "alias") username) (str "name") firstName) (str "addinfo") = none
    rw [getP_setParam_ne (show str "addinfo" ≠ str "name" by decide),
      getP_setParam_ne (show str "addinfo" ≠ str "alias" by decide),
      getP_setParam_ne (show str "addinfo" ≠ str "uid" by decide)]
    exact h0

/-- Witness for the amended C4 at concrete inputs. -/
theorem buildLink_param_contract_amended_witness :
    getP (buildLinkCore ⟨str "https://x.example/p", [(str "q", str "1")]⟩ (some 7)
        (str "bob") (str "Bob")
        (getBinomParams [] (some 7) (str "bob")).1 (getBinomParams [] (some 7) (str "bob")).2
        (str "Bob") (str "src1") 1000).params (str "uid") = some (uidStr (some 7))
      ∧ (str "q", str "1") ∈ (buildLinkCore ⟨str "https://x.example/p", [(str "q", str "1")]⟩
        (some 7) (str "bob") (str "Bob")
        (getBinomParams [] (some 7) (str "bob")).1 (getBinomParams [] (some 7) (str "bob")).2
        (str "Bob") (str "src1") 1000).params := by
  obtain ⟨r, hr, hs, hmem, huid, halias, hname, haddinfo⟩ :=
    buildLink_param_contract_amended (str "https://x.example/p?q=1") (str "bob") (str "Bob")
      (str "src1") (some 7) [] none 1000 ⟨str "https://x.example/p", [(str "q", str "1")]⟩
      (by decide)
  subst hr
  exact ⟨huid, hmem (str "q", str "1") (by decide) (by decide)⟩
